import Mathlib

/-!
Verification of the ARIA_Renal retrieval-augmented teaching assistant.

The development shallowly embeds the retrieval core
(`scripts/embedding/rag_retriever.py`), the chunker
(`scripts/embedding/create_embeddings.py`) and the response orchestrator
(`scripts/teaching_assistant.py`).

Modelling conventions:
* Python floats are modelled as exact rationals (`ℚ`); float rounding is
  abstracted away, so numeric claims are settled in exact arithmetic.
* `numpy` matrices are lists of rows (`List (List ℚ)`); a matrix delivered
  by an external library call is always rectangular, and the places where
  `numpy` would raise on ragged data are modelled as `Option` failures.
* Python dicts with string keys/values are insertion-ordered association
  lists; `hash(s)` used as a set key is modelled by the string `s` itself
  (the Python hash is injective up to collisions, which the code ignores).
* External libraries (`SentenceTransformer.encode`,
  `sklearn cosine_similarity`, `np.argsort`, the OpenAI client) are oracle
  parameters: total functions returning `Option`/`Except` where the Python
  call can raise.  `np.argsort(-x)` with the default quicksort kind is
  constrained only by its documented contract (a permutation of the index
  range enumerating values in non-increasing order); `numpy` does not
  promise a stable order for equal values.
-/

namespace AriaRenal

set_option maxRecDepth 40000

/-- Python dict with string keys and values, as an insertion-ordered
association list. -/
abbrev Metadata := List (String × String)

/-- Python `m.get(k)`: value of the first entry with key `k`, if any. -/
def metaGet (m : Metadata) (k : String) : Option String :=
  (m.find? (fun p => p.1 == k)).map (fun p => p.2)

/-- Python `m.get(k, d)`. -/
def metaGetD (m : Metadata) (k d : String) : String :=
  (metaGet m k).getD d

/-- Python dict assignment `m[k] = v` (on a copy): replaces the value of
the entry with key `k` in place when one exists (dict keys are unique),
appends the pair at the end otherwise. -/
def metaSet : Metadata → String → String → Metadata
  | [], k, v => [(k, v)]
  | p :: rest, k, v => if p.1 == k then (k, v) :: rest else p :: metaSet rest k v

/-- One element of the list returned by `retrieve_relevant_content`. -/
structure RetResult where
  text : String
  metadata : Metadata
  similarity_score : ℚ
  source : String
  deriving DecidableEq, Repr, Inhabited

/-- The `self.embeddings_data` store of `StaticsMechanicsRAG`. -/
structure EmbeddingsData where
  documents : List String
  embeddings : List (List ℚ)
  metadatas : List Metadata
  ids : List Nat
  deriving DecidableEq, Repr, Inhabited

/-- Decides whether `pre` is a leading segment of `l`. -/
def listHasPre [DecidableEq α] : List α → List α → Bool
  | [], _ => true
  | _ :: _, [] => false
  | a :: as, b :: bs => a = b && listHasPre as bs

/-- Decides whether `needle` occurs contiguously inside `l`. -/
def listHasSub [DecidableEq α] (needle : List α) : List α → Bool
  | [] => listHasPre needle []
  | b :: bs => listHasPre needle (b :: bs) || listHasSub needle bs

/-- Python substring test `needle in hay`. -/
def strContains (hay needle : String) : Bool :=
  listHasSub needle.data hay.data

/-- Python `s.lower()`, per code point. -/
def pyLower (x : String) : String :=
  String.mk (x.data.map Char.toLower)

/-- Python `s.upper()`, per code point. -/
def pyUpper (x : String) : String :=
  String.mk (x.data.map Char.toUpper)

/-- Python `s.strip()`: drop leading and trailing whitespace. -/
def pyStrip (x : String) : String :=
  String.mk (((x.data.dropWhile Char.isWhitespace).reverse.dropWhile Char.isWhitespace).reverse)

/-- Scanner for Python `s.split(sep)` with a non-empty separator: cut at
every non-overlapping left-to-right occurrence of `sep`.  The fuel is
bounded by the input length plus one; every step consumes at least one
character, so the zero-fuel case is never reached for non-empty `sep`
(it is written to be harmless anyway). -/
def splitOnCharsFuel (sep : List Char) : Nat → List Char → List Char → List (List Char)
  | 0, rest, acc => [acc.reverse ++ rest]
  | _ + 1, [], acc => [acc.reverse]
  | fuel + 1, x :: xs, acc =>
    if listHasPre sep (x :: xs) then
      acc.reverse :: splitOnCharsFuel sep fuel ((x :: xs).drop sep.length) []
    else
      splitOnCharsFuel sep fuel xs (x :: acc)

/-- Python `s.split(sep)` for a non-empty separator; `"".split(sep)` is
`[""]`. -/
def pySplitOn (x : String) (sep : String) : List String :=
  (splitOnCharsFuel sep.data (x.data.length + 1) x.data []).map String.mk

/-- Word scanner for Python `s.split()` (no argument): whitespace runs
separate words, empty pieces are dropped. -/
def wordsAux : List Char → List Char → List (List Char)
  | [], acc => if acc = [] then [] else [acc.reverse]
  | c :: cs, acc =>
    if c.isWhitespace then
      (if acc = [] then [] else [acc.reverse]) ++ wordsAux cs []
    else wordsAux cs (c :: acc)

/-- Python `s.split()` (no argument). -/
def pySplitWs (x : String) : List String :=
  (wordsAux x.data []).map String.mk

/-- Python `sep.join(parts)`. -/
def pyJoin (sep : String) : List String → String
  | [] => ""
  | [x] => x
  | x :: y :: rest => x ++ sep ++ pyJoin sep (y :: rest)

/-- The fixed domain-term list of `_keyword_boost`. -/
def renalTerms : List String :=
  ["renal", "kidney", "nephron", "glomerul", "tubule", "henle",
   "gfr", "clearance", "raas", "diuretic", "osm", "urine",
   "reabsorption", "secretion", "filtration", "collecting duct"]

/-- Number of domain terms occurring in a document
(`sum(t in dl for t in renal_terms)` over the lowercased text). -/
def docHits (d : String) : Nat :=
  (renalTerms.filter (fun t => strContains (pyLower d) t)).length

/-- The per-document boost factor: `1 + 0.05 * min(6, hits)` when the
document has any domain-term hit (`if hits:`), otherwise `1` — the value
`0.05 * min(6, 0) = 0` makes both cases one formula. -/
def boostOf (hits : Nat) : ℚ :=
  if hits ≠ 0 then 1 + (1 / 20 : ℚ) * ((min 6 hits : ℕ) : ℚ) else 1

/-- Embedding of `_keyword_boost`: a per-document multiplicative prior.
`boost = np.ones(max(1, len(docs)))`; when the lowercased query contains
any domain term, entry `i` becomes `boostOf` of the number of domain
terms in document `i`. -/
def keywordBoost (query : String) (docs : List String) : List ℚ :=
  let q := pyLower query
  let n := max 1 docs.length
  if renalTerms.any (fun t => strContains q t) then
    (List.range n).map (fun i => boostOf (docHits (docs.getD i "")))
  else List.replicate n 1

/-- Split a list into consecutive batches of 64, the fixed batch size of
the rebuild loop in `_ensure_doc_embeddings`. -/
def toBatches : List α → List (List α)
  | [] => []
  | a :: rest => (a :: rest).take 64 :: toBatches ((a :: rest).drop 64)
  termination_by l => l.length
  decreasing_by
    simp only [List.length_drop, List.length_cons]
    omega

/-- Model of `np.vstack` over encoded batches: succeeds when all rows share
one common width (ragged data would make `asarray`/`vstack` raise inside
the `try`, which the caller turns into the empty matrix). -/
def vstackQ (vs : List (List (List ℚ))) : Option (List (List ℚ)) :=
  let m := vs.flatten
  if m.all (fun r => r.length == (m.headD []).length) then some m else none

/-- The rebuild loop of `_ensure_doc_embeddings`: encode the documents in
batches of 64 and stack the results; `none` models an exception anywhere in
the loop (encoder load failure included). -/
def rebuildEmbeddings (enc : List String → Option (List (List ℚ)))
    (docs : List String) : Option (List (List ℚ)) := do
  let encoded ← (toBatches docs).mapM enc
  vstackQ encoded

/-- The `need_rebuild` flag of `_ensure_doc_embeddings`: the stored matrix
is unusable when its row count differs from the document count or any row
is not 384 wide (`shape != (len(docs), 384)`). -/
def needRebuild (docs : List String) (embs : List (List ℚ)) : Bool :=
  decide (embs.length ≠ docs.length) || !(embs.all (fun r => r.length == 384))

/-- Embedding of `_ensure_doc_embeddings`.  Returns the updated store and
the matrix handed to the caller: the stored matrix when usable, the freshly
rebuilt matrix (also written into the store) on a successful rebuild, and
the empty matrix (`np.zeros((0, 384))`, store untouched) when the rebuild
raises or there are no documents. -/
def ensureDocEmbeddings (enc : List String → Option (List (List ℚ)))
    (docs : List String) (embs : List (List ℚ)) (st : EmbeddingsData) :
    EmbeddingsData × List (List ℚ) :=
  if needRebuild docs embs then
    if docs.length = 0 then (st, [])
    else
      match rebuildEmbeddings enc docs with
      | some rebuilt => ({ st with embeddings := rebuilt }, rebuilt)
      | none => (st, [])
  else (st, embs)

/-- Embedding of `_encode_query`: run the encoder on the one-element batch
`[query]`; an exception (model load or encode failure) is caught and `None`
is returned. -/
def encodeQuery (enc : List String → Option (List (List ℚ)))
    (query : String) : Option (List (List ℚ)) :=
  match enc [query] with
  | some v => some v
  | none => none

/-- Number of scalar entries of a matrix (`ndarray.size`). -/
def matSize (m : List (List ℚ)) : Nat :=
  (m.map List.length).sum

/-- Elementwise product `cos_row * boost` (`numpy` raises on a length
mismatch, which the surrounding `try` turns into the fallback path). -/
def mulBroadcast (a b : List ℚ) : Option (List ℚ) :=
  if a.length = b.length then some (List.zipWith (fun x y => x * y) a b) else none

/-- The three hand-authored fallback entries built afresh on every call of
`_get_fallback_content` (texts, metadata, scores and sources transcribed
verbatim from the source). -/
def fallbackBase : List RetResult :=
  [{ text := "Glomerular filtration depends on capillary hydrostatic pressure (P_GC), Bowman\x27s space pressure (P_BS), and plasma oncotic pressure (π_GC). Relation: $\\text\x7bGFR\x7d = K_f\\,(P_\x7bGC\x7d - P_\x7bBS\x7d - \\pi_\x7bGC\x7d)$.",
     metadata := [("content_type", "course_slide"),
                  ("topic", "GFR determinants"),
                  ("source_file", "renal_overview.md")],
     similarity_score := 7 / 10,
     source := "renal_overview.md" },
   { text := "The loop of Henle establishes the corticomedullary gradient via countercurrent multiplication and urea recycling. The thick ascending limb reabsorbs NaCl without water, concentrating the medulla.",
     metadata := [("content_type", "course_slide"),
                  ("topic", "Countercurrent mechanism"),
                  ("source_file", "henle_notes.md")],
     similarity_score := 13 / 20,
     source := "henle_notes.md" },
   { text := "Clearance formulas: $C_x = \\dfrac\x7bU_x V\x7d\x7bP_x\x7d$ and $C_\x7b\\mathrm\x7bosm\x7d\x7d = \\dfrac\x7bU_\x7b\\mathrm\x7bosm\x7d\x7d V\x7d\x7bP_\x7b\\mathrm\x7bosm\x7d\x7d\x7d$. Free water clearance: $\\dot\x7bV\x7d_\x7bH2O\x7d = V - C_\x7b\\mathrm\x7bosm\x7d\x7d$.",
     metadata := [("content_type", "exercise_solution"),
                  ("topic", "Clearance calculations"),
                  ("source_file", "clearance_solutions.md")],
     similarity_score := 3 / 5,
     source := "clearance_solutions.md" }]

/-- Embedding of `_get_fallback_content`: the fixed base entries, with the
`content_type` of every entry overwritten when `tag_as` is truthy
(`if tag_as:` is false for both `None` and the empty string). -/
def fallbackContent (tag_as : Option String) : List RetResult :=
  match tag_as with
  | some t =>
    if t ≠ "" then
      fallbackBase.map (fun r => { r with metadata := metaSet r.metadata "content_type" t })
    else fallbackBase
  | none => fallbackBase

/-- External collaborators of the retriever, by their documented contracts:
`enc` is `SentenceTransformer.encode` on a batch of texts (`none` models a
raised exception, model-load failure included); `cos` is
`sklearn cosine_similarity(qvec, embs)[0]`; `sorter` is
`np.argsort(-sims)`, i.e. an index permutation enumerating the scores in
non-increasing order (the default quicksort kind promises no
particular order among equal scores). -/
structure Oracles where
  enc : List String → Option (List (List ℚ))
  cos : List (List ℚ) → List (List ℚ) → Option (List ℚ)
  sorter : List ℚ → List Nat

/-- Python `n or d` on integers (`0` is the only falsy int). -/
def pyIntOr (n d : Int) : Int :=
  if n = 0 then d else n

/-- The `source` field of a result:
`meta.get("source_file") or meta.get("source") or "unknown"` with Python
truthiness (absent keys and empty strings are falsy). -/
def sourceOf (m : Metadata) : String :=
  let a := metaGetD m "source_file" ""
  if a ≠ "" then a
  else
    let b := metaGetD m "source" ""
    if b ≠ "" then b else "unknown"

/-- One entry of the result list of `retrieve_relevant_content`, for the
document index `i` taken from the top-k list: guarded text and metadata
lookups, `content_type` overridden on a copy when `tag_as` is truthy, and
the boosted score at `i` (always in range, since `i` comes from a
permutation of the index range of `sims`). -/
def mkResult (docs : List String) (metas : List Metadata) (sims : List ℚ)
    (tag_as : Option String) (i : Nat) : RetResult :=
  let text := if i < docs.length then docs.getD i "" else ""
  let meta0 := if i < metas.length then metas.getD i [] else []
  let meta :=
    match tag_as with
    | some t => if t ≠ "" then metaSet meta0 "content_type" t else meta0
    | none => meta0
  { text := text
    metadata := meta
    similarity_score := sims.getD i 0
    source := sourceOf meta }

/-- Embedding of `retrieve_relevant_content`.  Returns the updated store
(the rebuild path may replace `embeddings`) together with the result list;
every failure path resolves to the fallback content, and the final guard
replaces an all-blank result list by the fallback as well. -/
def retrieve (o : Oracles) (query : String) (n_results : Int)
    (tag_as : Option String) (st : EmbeddingsData) :
    EmbeddingsData × List RetResult :=
  let docs := st.documents
  let metas := st.metadatas
  if docs.length = 0 then (st, fallbackContent tag_as)
  else
    let p := ensureDocEmbeddings o.enc docs st.embeddings st
    let st1 := p.1
    let embs := p.2
    if matSize embs = 0 then (st1, fallbackContent tag_as)
    else
      match encodeQuery o.enc query with
      | none => (st1, fallbackContent tag_as)
      | some qvec =>
        if matSize qvec = 0 then (st1, fallbackContent tag_as)
        else
          let boost := keywordBoost query docs
          match (o.cos qvec embs).bind (fun c => mulBroadcast c boost) with
          | none => (st1, fallbackContent tag_as)
          | some sims =>
            let k := max 1 (pyIntOr n_results 8)
            let top := (o.sorter sims).take k.toNat
            let results := top.map (mkResult docs metas sims tag_as)
            if results.all (fun r => pyStrip r.text == "") then
              (st1, fallbackContent tag_as)
            else (st1, results)

/-- Relation ordering indices by non-increasing value in `xs` (the score
array; every index produced by the sorter is in range, so the `getD`
default is never consulted by the contract). -/
def geAt (xs : List ℚ) (i j : Nat) : Prop :=
  xs.getD j 0 ≤ xs.getD i 0

instance geAtDec (xs : List ℚ) : DecidableRel (geAt xs) := fun i j =>
  decidable_of_iff (xs.getD j 0 ≤ xs.getD i 0) Iff.rfl

/-- Documented contract of `np.argsort(-xs)`: a permutation of
`range(len(xs))` enumerating the values of `xs` in non-increasing order.
The default quicksort kind makes no promise about the relative order
of equal values. -/
def ArgsortDescSpec (f : List ℚ → List Nat) : Prop :=
  ∀ xs : List ℚ, (f xs).Perm (List.range xs.length) ∧ List.Sorted (geAt xs) (f xs)

/-- One admissible implementation of `np.argsort(-xs)`: a stable sort of
the index range (insertion sort keeps equal-score indices in increasing
order). -/
def argsortStable (xs : List ℚ) : List Nat :=
  List.insertionSort (geAt xs) (List.range xs.length)

/-- Another admissible implementation of `np.argsort(-xs)`: sorting the
reversed index range, so equal-score indices come out in decreasing
order. -/
def argsortTieRev (xs : List ℚ) : List Nat :=
  List.insertionSort (geAt xs) (List.range xs.length).reverse

/-- Python `l[-n:]` for positive `n`: the last `n` elements. -/
def lastN (n : Nat) (l : List α) : List α :=
  l.drop (l.length - n)

/-- The accumulation loop of `chunk_text`: greedily extend the current
chunk while `len(current + sentence) < chunk_size`, otherwise flush the
stripped current chunk (when truthy) and restart from the sentence; the
final truthy remainder is flushed after the loop. -/
def buildChunks (chunk_size : Int) : List String → String → List String
  | [], current => if current ≠ "" then [pyStrip current] else []
  | s :: rest, current =>
    if ((current ++ s).length : Int) < chunk_size then
      buildChunks chunk_size rest (current ++ s ++ ". ")
    else
      (if current ≠ "" then [pyStrip current] else []) ++ buildChunks chunk_size rest (s ++ ". ")

/-- The overlap pass of `chunk_text`: every chunk after the first is
prefixed with the last `overlap` whitespace-words of the previous chunk. -/
def overlapChunks (overlap : Int) (chunks : List String) : List String :=
  chunks.enum.map (fun p =>
    if p.1 > 0 ∧ overlap > 0 then
      pyJoin " " (lastN overlap.toNat (pySplitWs (chunks.getD (p.1 - 1) ""))) ++ " " ++ p.2
    else p.2)

/-- Embedding of `chunk_text` from `create_embeddings.py` (defaults
`chunk_size=500`, `overlap=50`): the text is split on `". "`, chunks are
accumulated on sentence boundaries, then word overlap is prepended. -/
def chunk_text (text : String) (chunk_size : Int := 500) (overlap : Int := 50) : List String :=
  overlapChunks overlap (buildChunks chunk_size (pySplitOn text ". ") "")

/-- The loop of `_deduplicate_content` in `teaching_assistant.py`: an entry
is dropped when the key of its text — `hash(content["text"][:300])`,
modelled by the 300-character prefix itself — was already seen. -/
def dedupLoop : List RetResult → List String → List RetResult
  | [], _ => []
  | c :: rest, seen =>
    let key := c.text.take 300
    if key ∈ seen then dedupLoop rest seen
    else c :: dedupLoop rest (key :: seen)

/-- Embedding of `_deduplicate_content`. -/
def dedupContent (l : List RetResult) : List RetResult :=
  dedupLoop l []

/-- Deduplication as the spec describes it for claim C4 only (second
definition of a refinement claim, following the spec words rather than the
source): keyed by the first 400 characters of the text TOGETHER WITH the
source file. -/
def dedupSpecLoop : List RetResult → List (String × String) → List RetResult
  | [], _ => []
  | c :: rest, seen =>
    let key := (c.text.take 400, c.source)
    if key ∈ seen then dedupSpecLoop rest seen
    else c :: dedupSpecLoop rest (key :: seen)

/-- Spec-side deduplication (claim C4), to be compared with
`dedupContent`. -/
def dedupContentSpec (l : List RetResult) : List RetResult :=
  dedupSpecLoop l []

/-- One message of the chat-completion request. -/
structure ChatMsg where
  role : String
  content : String
  deriving DecidableEq, Repr, Inhabited

/-- The `self.system_prompt` of `StaticsMechanicsTA`, transcribed
verbatim. -/
def systemPrompt : String :=
  "\nYou are ARIA, a strict Academic Tutor for Statics & Mechanics of Materials. You EXCLUSIVELY respond to questions related to statics and mechanics. For any other topics, respond exactly with: \"This question is not relevant to the course.\"\n\nCORE PRINCIPLES:\n1. Provide clear, direct explanations of concepts\n2. Deliver step-by-step solutions for numerical problems\n3. Include relevant formulas with variable definitions\n4. Maintain professional academic tone\n5. Focus solely on statics and mechanics content\n6. Give complete information without unnecessary elaboration\n7. Use precise technical language\n8. Format ALL mathematical expressions using LaTeX notation\n\nMATHEMATICAL FORMATTING REQUIREMENTS:\n- Use $expression$ for inline mathematical expressions\n- Use $$expression$$ for display equations\n- Format all numerical values, variables, and units in LaTeX\n- Examples: $\\sigma = \\frac\x7bF\x7d\x7bA\x7d$, $E = 200 \\text\x7b GPa\x7d$, $\\theta = 45°$\n- Include proper subscripts, superscripts, and Greek letters\n\nRESPONSE STRUCTURE:\n- Concept Explanation: Clear theory and fundamental principles with LaTeX formatting\n- Solution Steps: Direct problem-solving approach with calculations in LaTeX\n- Formulas: Relevant equations with variable definitions in proper LaTeX format\n\nRemember: You are a strict academic tutor focused exclusively on statics and mechanics content. Reject any non-course questions with the specified response. Always use LaTeX for mathematical notation.\n"

/-- The system prompt of `_create_general_messages`, transcribed
verbatim. -/
def generalSystemPrompt : String :=
  "\nYou are ARIA, an Academic Tutor for Statics & Mechanics of Materials. You respond ONLY to questions related to statics and mechanics of materials.\n\nFor ANY question not related to statics and mechanics of materials, respond exactly:\n\"This question is not relevant to the course.\"\n\nDo not provide assistance, explanations, or guidance for topics outside of statics and mechanics of materials. If the question contains any mathematical expressions, format them using LaTeX notation with $expression$ for inline math and $$expression$$ for display equations.\n"

/-- The user-turn template of `_create_messages` (an f-string; `\x7b\x7b`
renders as a literal brace). -/
def userMessageFor (question context : String) : String :=
  "\nStudent Question: " ++ question ++ "\n\nCourse Material and Context:\n" ++ context ++
  "\n\nProvide direct academic instruction:\n\n1. **Concept Explanation**: Clearly explain relevant theory and principles with LaTeX formatting\n2. **Solution Steps**: Provide step-by-step approach for problems with calculations in LaTeX\n3. **Formulas**: Include relevant equations with variable definitions in proper LaTeX format\n\nIMPORTANT: Format ALL mathematical expressions using LaTeX notation:\n- Use $expression$ for inline mathematical expressions\n- Use $$expression$$ for display equations\n- Format numerical values, variables, units, and symbols in LaTeX\n- Examples: $\\sigma = \\frac\x7bF\x7d\x7bA\x7d$, $E = 200 \\text\x7b GPa\x7d$, $\\theta = 45°$\n\nFocus on clear, direct instruction without guided discovery, scaffolding, or reflection questions.\n"

/-- Python `conversation_history[-6:]` (all of it when shorter; the code
skips the loop entirely for a falsy history, which coincides with taking
the last six of an empty list). -/
def lastSix (hist : List ChatMsg) : List ChatMsg :=
  hist.drop (hist.length - 6)

/-- Embedding of `_create_messages`: system prompt, last six history
turns, then the templated user turn. -/
def createMessages (question context : String) (hist : List ChatMsg) : List ChatMsg :=
  [{ role := "system", content := systemPrompt }] ++ lastSix hist ++
  [{ role := "user", content := userMessageFor question context }]

/-- Embedding of `_create_general_messages`: general system prompt, last
six history turns, then the raw question. -/
def createGeneralMessages (question : String) (hist : List ChatMsg) : List ChatMsg :=
  [{ role := "system", content := generalSystemPrompt }] ++ lastSix hist ++
  [{ role := "user", content := question }]

/-- One block of `_prepare_context`.  Two Python quirks are kept
faithfully: metadata values are strings, so `", ".join(concepts)`
interleaves `", "` between the CHARACTERS of the stored string, and
`formulas[:2]` takes its first two characters. -/
def contextPart (c : RetResult) : String :=
  let content_type := metaGetD c.metadata "content_type" "unknown"
  let topic := metaGetD c.metadata "topic" "Unknown Topic"
  let base := "\n--- " ++ pyUpper content_type ++ ": " ++ topic ++ " ---\n" ++ c.text
  let withConcepts :=
    match metaGet c.metadata "concepts" with
    | some cs =>
      if cs ≠ "" then
        base ++ "\nKey Concepts: " ++
          pyJoin ", " (cs.data.map (fun ch => String.mk [ch]))
      else base
    | none => base
  match metaGet c.metadata "formulas" with
  | some fs =>
    if fs ≠ "" then
      withConcepts ++ "\nRelevant Formulas: " ++
        pyJoin "; " ((fs.data.take 2).map (fun ch => String.mk [ch]))
    else withConcepts
  | none => withConcepts

/-- Embedding of `_prepare_context`. -/
def prepareContext (l : List RetResult) : String :=
  pyJoin "\n" (l.map contextPart)

/-- Embedding of `_get_relevant_content`: three facet retrievals (two
concept chunks, two similar exercises, one solution guidance),
concatenation, deduplication, cap of five. -/
def getRelevantContent (o : Oracles) (question : String) (st : EmbeddingsData) :
    EmbeddingsData × List RetResult :=
  let p1 := retrieve o question 2 (some "course_slide") st
  let p2 := retrieve o question 2 (some "exercise_question") p1.1
  let p3 := retrieve o question 1 (some "exercise_solution") p2.1
  (p3.1, (dedupContent (p1.2 ++ p2.2 ++ p3.2)).take 5)

/-- The dictionary returned by `generate_response`: its success shape,
and its error shape holding only `response` and `error`. -/
inductive TAResult where
  | ok (response : String) (relevant_topics : List String)
       (concepts_covered : List String) (suggested_review : List String)
       (is_course_relevant : Bool) (context_sources : List String)
  | failed (response : String) (error : String)
  deriving DecidableEq, Repr

/-- The string stored under the `"response"` key in either shape. -/
def TAResult.response : TAResult → String
  | .ok r _ _ _ _ _ => r
  | .failed r _ => r

/-- External collaborators of the orchestrator.  `relevance` models
`_validate_and_check_course_relevance` (a total Boolean classifier: it
catches its own exceptions and only inspects the question; claim C2
quantifies over both outcomes).  `llm` is the chat-completion call, the
one step of `generate_response` whose exception reaches the outer
handler.  `fmtSources` models `_format_source_references` (total: it
wraps its whole body in `try`/`except` returning `""`). -/
structure TAOracles where
  rag : Oracles
  relevance : String → Bool
  llm : List ChatMsg → Except String String
  fmtSources : List RetResult → String

/-- The fixed error message of the outer exception handler of
`generate_response`, transcribed verbatim. -/
def errorResponseMsg : String :=
  "I\x27m experiencing technical difficulties processing your question. Please rephrase your question clearly. If it\x27s related to statics and mechanics of materials, I\x27ll provide direct instruction. If not, this question is not relevant to the course."

/-- The source-reference block of `generate_response`: every modelled
result is a dict with a `metadata` key, so the validation filter keeps
all entries; the reference line is appended only when the formatted
string is non-blank. -/
def appendSources (fmt : List RetResult → String) (resp : String)
    (relevantContent : List RetResult) : String :=
  let validContent := relevantContent.filter (fun _ => true)
  if validContent ≠ [] then
    let refs := fmt validContent
    if pyStrip refs ≠ "" then resp ++ "\n\n📚 Sources: " ++ refs
    else resp
  else resp

/-- Embedding of `_extract_concepts_from_content`.  `set.update(s)` with a
string argument inserts the characters of `s`; Python set iteration order
is unspecified and modelled as a canonical deduplicated order (no claim
depends on it). -/
def extractConcepts (l : List RetResult) : List String :=
  ((l.map (fun c => ((metaGet c.metadata "concepts").getD "").toList)).flatten.map
    (fun ch => String.singleton ch)).dedup

/-- Embedding of `_suggest_review_materials` (set order modelled as a
canonical deduplicated order). -/
def suggestReview (l : List RetResult) : List String :=
  ((l.map (fun c => metaGetD c.metadata "topic" "")).filter (fun t => t ≠ "")).dedup

/-- The `relevant_topics` field of the success dictionary. -/
def relevantTopics (l : List RetResult) : List String :=
  l.map (fun c => metaGetD c.metadata "topic" "Unknown")

/-- The `context_sources` field of the success dictionary. -/
def contextSourcesOf (l : List RetResult) : List String :=
  l.map (fun c => metaGetD c.metadata "source_file" "unknown")

/-- Embedding of `generate_response`.  The retrieval layer is total (every
failure there resolves to fallback content), the relevance classifier and
the source formatter catch their own exceptions, and `_log_interaction`
only writes to external stores behind nested `try`/`except` (omitted: it
cannot raise and does not affect the returned dictionary) — so the only
exception reaching the outer handler is the completion call, answered
with the fixed error dictionary. -/
def generateResponse (o : TAOracles) (question : String) (hist : List ChatMsg)
    (st : EmbeddingsData) : TAResult × EmbeddingsData :=
  let isRel := o.relevance question
  let pr := if isRel then getRelevantContent o.rag question st else (st, [])
  let st1 := pr.1
  let relevantContent := pr.2
  let messages :=
    if isRel then createMessages question (prepareContext relevantContent) hist
    else createGeneralMessages question hist
  match o.llm messages with
  | .error e => (.failed errorResponseMsg e, st1)
  | .ok resp0 =>
    let resp :=
      if isRel ∧ relevantContent ≠ [] then appendSources o.fmtSources resp0 relevantContent
      else resp0
    (.ok resp
      (if relevantContent ≠ [] then relevantTopics relevantContent else [])
      (if relevantContent ≠ [] then extractConcepts relevantContent else [])
      (if relevantContent ≠ [] then suggestReview relevantContent else [])
      isRel
      (if relevantContent ≠ [] then contextSourcesOf relevantContent else []),
     st1)

/-- A concrete encoder oracle: every text becomes the one-dimensional
vector `[1]`. -/
def encConst : List String → Option (List (List ℚ)) :=
  fun texts => some (texts.map (fun _ => [1]))

/-- A concrete encoder oracle whose model load always fails. -/
def encFail : List String → Option (List (List ℚ)) :=
  fun _ => none

/-- A concrete encoder oracle returning one 384-wide zero row per text. -/
def enc384 : List String → Option (List (List ℚ)) :=
  fun texts => some (texts.map (fun _ => List.replicate 384 (0 : ℚ)))

/-- The per-text vector produced by `enc384`. -/
def encOne384 : String → List ℚ :=
  fun _ => List.replicate 384 (0 : ℚ)

/-- A concrete cosine oracle: every document row scores `1/2` (a tie). -/
def cosHalf : List (List ℚ) → List (List ℚ) → Option (List ℚ) :=
  fun _ embs => some (embs.map (fun _ => (1 / 2 : ℚ)))

/-- Concrete oracles with the stable argsort. -/
def demoOracles : Oracles :=
  { enc := encConst, cos := cosHalf, sorter := argsortStable }

/-- Concrete oracles whose argsort breaks ties in reverse index order. -/
def revOracles : Oracles :=
  { enc := encConst, cos := cosHalf, sorter := argsortTieRev }

/-- Concrete oracles with a failing encoder. -/
def failOracles : Oracles :=
  { enc := encFail, cos := cosHalf, sorter := argsortStable }

/-- An index holding zero documents. -/
def emptyStore : EmbeddingsData :=
  { documents := [], embeddings := [], metadatas := [], ids := [] }

/-- An index with two documents whose scores tie under `cosHalf`; its
stored matrix already has the compatible shape `(2, 384)`, so retrieval
triggers no rebuild. -/
def tieStore : EmbeddingsData :=
  { documents := ["first tied document", "second tied document"],
    embeddings := [List.replicate 384 0, List.replicate 384 0],
    metadatas := [[("source_file", "a.md")], [("source_file", "b.md")]],
    ids := [0, 1] }

/-- An index whose single document has blank text; its stored matrix has
the compatible shape `(1, 384)`, so retrieval triggers no rebuild. -/
def blankStore : EmbeddingsData :=
  { documents := [""], embeddings := [List.replicate 384 0],
    metadatas := [[]], ids := [0] }

/-- An index with one document. -/
def oneDocStore : EmbeddingsData :=
  { documents := ["Renal physiology notes."],
    embeddings := [],
    metadatas := [[("source_file", "notes.md")]],
    ids := [0] }

/-- Two retrieval results with identical text (hence identical first 300
and 400 characters) but different sources. -/
def dupA : RetResult :=
  { text := "Identical chunk text about the nephron.",
    metadata := [("source_file", "a.md")],
    similarity_score := 1 / 2,
    source := "a.md" }

/-- Same text as `dupA`, different source. -/
def dupB : RetResult :=
  { text := "Identical chunk text about the nephron.",
    metadata := [("source_file", "b.md")],
    similarity_score := 1 / 2,
    source := "b.md" }

/-- Concrete orchestrator oracles: off-domain classifier, a fixed
completion reply, empty source formatting. -/
def demoTAOracles : TAOracles :=
  { rag := demoOracles,
    relevance := fun _ => false,
    llm := fun _ => Except.ok "All good.",
    fmtSources := fun _ => "" }

/-- Concrete orchestrator oracles whose completion call raises. -/
def failTAOracles : TAOracles :=
  { rag := demoOracles,
    relevance := fun _ => false,
    llm := fun _ => Except.error "rate limit",
    fmtSources := fun _ => "" }

/-- The message list `generate_response` sends to the completion service
(recomputed: `getRelevantContent` is pure, so this equals the list built
inside `generateResponse`). -/
def messagesOf (o : TAOracles) (question : String) (hist : List ChatMsg)
    (st : EmbeddingsData) : List ChatMsg :=
  if o.relevance question then
    createMessages question (prepareContext (getRelevantContent o.rag question st).2) hist
  else createGeneralMessages question hist


theorem toBatches_flatten : ∀ l : List α, (toBatches l).flatten = l
  | [] => by simp [toBatches]
  | a :: rest => by
    rw [toBatches, List.flatten_cons, toBatches_flatten ((a :: rest).drop 64)]
    exact List.take_append_drop 64 (a :: rest)
  termination_by l => l.length
  decreasing_by
    simp only [List.length_drop, List.length_cons]
    omega

theorem argsortStable_spec : ArgsortDescSpec argsortStable := by
  intro xs
  haveI : IsTotal Nat (geAt xs) := ⟨fun a b => le_total _ _⟩
  haveI : IsTrans Nat (geAt xs) := ⟨fun a b c h1 h2 => le_trans h2 h1⟩
  exact ⟨List.perm_insertionSort _ _, List.sorted_insertionSort _ _⟩

theorem argsortTieRev_spec : ArgsortDescSpec argsortTieRev := by
  intro xs
  haveI : IsTotal Nat (geAt xs) := ⟨fun a b => le_total _ _⟩
  haveI : IsTrans Nat (geAt xs) := ⟨fun a b c h1 h2 => le_trans h2 h1⟩
  exact ⟨(List.perm_insertionSort _ _).trans (List.reverse_perm _),
         List.sorted_insertionSort _ _⟩

theorem append_ne_empty_left (a b : String) (h : a ≠ "") : a ++ b ≠ "" := by
  intro hc
  apply h
  have hdata : (a ++ b).data = ([] : List Char) := by rw [hc]
  rw [String.data_append] at hdata
  rcases List.append_eq_nil.mp hdata with ⟨ha, _⟩
  cases a
  simp_all

theorem metaGet_metaSet_self (m : Metadata) (k v : String) :
    metaGet (metaSet m k v) k = some v := by
  induction m with
  | nil => simp [metaSet, metaGet, List.find?]
  | cons p rest ih =>
    by_cases hp : p.1 == k
    · simp [metaSet, hp, metaGet, List.find?]
    · simp only [metaSet, hp, Bool.false_eq_true, if_false]
      simpa [metaGet, List.find?, hp] using ih

theorem metaGet_metaSet_other (m : Metadata) (k v k2 : String) (h : k2 ≠ k) :
    metaGet (metaSet m k v) k2 = metaGet m k2 := by
  have hk : (k == k2) = false := by
    simp only [beq_eq_false_iff_ne, ne_eq]
    exact fun hkk => h hkk.symm
  induction m with
  | nil => simp [metaSet, metaGet, List.find?, hk]
  | cons p rest ih =>
    by_cases hp : p.1 == k
    · have hp2 : (p.1 == k2) = false := by
        have := eq_of_beq hp
        simp only [beq_eq_false_iff_ne, ne_eq, this]
        exact fun hkk => h hkk.symm
      simp [metaSet, hp, metaGet, List.find?, hk, hp2]
    · simp only [metaSet, hp, Bool.false_eq_true, if_false]
      by_cases hq : p.1 == k2
      · simp [metaGet, List.find?, hq]
      · simpa [metaGet, List.find?, hq] using ih

/-- Scores of the fallback entries are `0.70, 0.65, 0.60` whatever the
tag override is (the override touches only metadata). -/
theorem fallbackContent_scores (tag_as : Option String) :
    (fallbackContent tag_as).map RetResult.similarity_score =
      [7 / 10, 13 / 20, 3 / 5] := by
  match tag_as with
  | none => rfl
  | some t =>
    by_cases h : t = "" <;> simp [fallbackContent, h, fallbackBase]

/-- Texts of the fallback entries are independent of the tag override. -/
theorem fallbackContent_texts (tag_as : Option String) :
    (fallbackContent tag_as).map RetResult.text = fallbackBase.map RetResult.text := by
  match tag_as with
  | none => rfl
  | some t =>
    by_cases h : t = "" <;> simp [fallbackContent, h]

theorem fallbackContent_length (tag_as : Option String) :
    (fallbackContent tag_as).length = 3 := by
  match tag_as with
  | none => rfl
  | some t =>
    by_cases h : t = "" <;> simp [fallbackContent, h, fallbackBase]

theorem keywordBoost_length (query : String) (docs : List String) :
    (keywordBoost query docs).length = max 1 docs.length := by
  simp only [keywordBoost]
  split <;> simp

theorem mulBroadcast_some_length {a b s : List ℚ} (h : mulBroadcast a b = some s) :
    s.length = b.length := by
  unfold mulBroadcast at h
  split at h
  · cases h
    rename_i hlen
    simp [List.length_zipWith, hlen]
  · cases h

/-- Structural case split for `retrieve_relevant_content`: either the call
resolves to the fallback content, or the query encoding succeeded and the
result is the mapped top-k of some boosted score array whose length is
`max 1 len(docs)`, with at least one non-blank text. -/
theorem retrieve_eq_fallback_or (o : Oracles) (query : String) (n_results : Int)
    (tag_as : Option String) (st : EmbeddingsData) :
    (retrieve o query n_results tag_as st).2 = fallbackContent tag_as ∨
    ∃ sims : List ℚ,
      sims.length = max 1 st.documents.length ∧
      encodeQuery o.enc query ≠ none ∧
      (retrieve o query n_results tag_as st).2 =
        ((o.sorter sims).take (max 1 (pyIntOr n_results 8)).toNat).map
          (mkResult st.documents st.metadatas sims tag_as) ∧
      ¬((((o.sorter sims).take (max 1 (pyIntOr n_results 8)).toNat).map
          (mkResult st.documents st.metadatas sims tag_as)).all
            (fun r => pyStrip r.text == "") = true) := by
  simp only [retrieve]
  split
  · exact Or.inl rfl
  · split
    · exact Or.inl rfl
    · split
      · exact Or.inl rfl
      · rename_i qvec hq
        split
        · exact Or.inl rfl
        · split
          · exact Or.inl rfl
          · rename_i sims hsims
            split
            · exact Or.inl rfl
            · rename_i hblank
              refine Or.inr ⟨sims, ?_, ?_, rfl, hblank⟩
              · rcases Option.bind_eq_some.mp hsims with ⟨c, _, hmul⟩
                rw [mulBroadcast_some_length hmul, keywordBoost_length]
              · intro hnone
                rw [hq] at hnone
                cases hnone

/-- Claim C1: for an index with zero documents, `retrieve_relevant_content(query,
n_results=5)` returns, for every query string, between 1 and 5 results —
exactly the fixed hand-authored 3-entry fallback set — each with non-empty
text and a similarity score between 0.6 and 0.7.  The embedding is a
total function, so the call never raises and never returns an empty
list. -/
theorem retrieve_empty_index_fallback (o : Oracles) (query : String)
    (st : EmbeddingsData) (h : st.documents = []) :
    (retrieve o query 5 none st).2 = fallbackContent none ∧
    1 ≤ (retrieve o query 5 none st).2.length ∧
    (retrieve o query 5 none st).2.length ≤ 5 ∧
    ∀ r ∈ (retrieve o query 5 none st).2,
      r.text ≠ "" ∧ (3 / 5 : ℚ) ≤ r.similarity_score ∧ r.similarity_score ≤ 7 / 10 := by
  have hr : (retrieve o query 5 none st).2 = fallbackContent none := by
    unfold retrieve
    simp [h]
  refine ⟨hr, by rw [hr]; decide, by rw [hr]; decide, ?_⟩
  rw [hr]
  intro r hrm
  have hm : r ∈ fallbackBase := hrm
  simp only [fallbackBase, List.mem_cons, List.not_mem_nil, or_false] at hm
  rcases hm with h1 | h1 | h1 <;> subst h1 <;>
    exact ⟨by decide, by norm_num, by norm_num⟩

/-- Witness for C1 at a concrete empty index and query. -/
theorem retrieve_empty_index_fallback_witness :
    (retrieve demoOracles "What is GFR?" 5 none emptyStore).2 = fallbackContent none ∧
    1 ≤ (retrieve demoOracles "What is GFR?" 5 none emptyStore).2.length ∧
    (retrieve demoOracles "What is GFR?" 5 none emptyStore).2.length ≤ 5 ∧
    ∀ r ∈ (retrieve demoOracles "What is GFR?" 5 none emptyStore).2,
      r.text ≠ "" ∧ (3 / 5 : ℚ) ≤ r.similarity_score ∧ r.similarity_score ≤ 7 / 10 :=
  retrieve_empty_index_fallback demoOracles "What is GFR?" emptyStore rfl

/-- Claim C3, counterexample: when the encoder model cannot be loaded,
`_encode_query` returns `None` — not a zero vector — and
`retrieve_relevant_content` on a one-document index answers with the
fixed fallback content instead of running similarity search over the
chunks with equal scores. -/
theorem encode_failure_counterexample :
    encodeQuery encFail "explain GFR" = none ∧
    (retrieve failOracles "explain GFR" 5 none oneDocStore).2 = fallbackContent none := by
  refine ⟨rfl, ?_⟩
  rcases retrieve_eq_fallback_or failOracles "explain GFR" 5 none oneDocStore with
    hf | ⟨_, _, hne, _, _⟩
  · exact hf
  · exact absurd rfl hne

/-- Claim C3, amended: if query encoding fails (model load failure included),
`_encode_query` returns `None` (not a zero vector) and
`retrieve_relevant_content` resolves to the fallback content: no
exception propagates, and no equal-score similarity search is run. -/
theorem encode_failure_resolves_to_fallback (o : Oracles) (query : String)
    (n_results : Int) (tag_as : Option String) (st : EmbeddingsData)
    (h : o.enc [query] = none) :
    encodeQuery o.enc query = none ∧
    (retrieve o query n_results tag_as st).2 = fallbackContent tag_as := by
  have he : encodeQuery o.enc query = none := by simp [encodeQuery, h]
  refine ⟨he, ?_⟩
  rcases retrieve_eq_fallback_or o query n_results tag_as st with
    hf | ⟨_, _, hne, _, _⟩
  · exact hf
  · exact absurd he hne

/-- Witness for the amended C3 at a concrete failing encoder. -/
theorem encode_failure_resolves_to_fallback_witness :
    encodeQuery failOracles.enc "how does the loop of Henle work" = none ∧
    (retrieve failOracles "how does the loop of Henle work" 2 (some "course_slide")
        oneDocStore).2 = fallbackContent (some "course_slide") :=
  encode_failure_resolves_to_fallback failOracles "how does the loop of Henle work" 2
    (some "course_slide") oneDocStore rfl

/-- Claim C7, counterexample: `chunk_text` applied to the empty string does not
return an empty sequence: `"".split(". ")` is `[""]`, the accumulation
loop turns it into the chunk `". "`, and `strip()` leaves `"."`. -/
theorem chunk_text_empty_counterexample :
    chunk_text "" ≠ ([] : List String) := by decide

/-- Claim C7, amended: on the empty string `chunk_text` returns the single
degenerate chunk `"."` (not the empty sequence); the embedding is a total
function, so chunking raises no error on any input. -/
theorem chunk_text_empty_eq :
    chunk_text "" = ["."] := by decide

/-- Claim C4, counterexample: two results with identical text (so identical
first 400 characters) but different sources.  The code collapses them to
one — the dedup key is only the 300-character text prefix — while the
spec-described key (text prefix TOGETHER WITH the source file) would keep
both. -/
theorem dedup_ignores_source_counterexample :
    dedupContent [dupA, dupB] = [dupA] ∧
    dedupContentSpec [dupA, dupB] = [dupA, dupB] ∧
    dedupContent [dupA, dupB] ≠ dedupContentSpec [dupA, dupB] := by
  have h1 : dedupContent [dupA, dupB] = [dupA] := by
    simp [dedupContent, dedupLoop, dupA, dupB]
  have h2 : dedupContentSpec [dupA, dupB] = [dupA, dupB] := by
    simp [dedupContentSpec, dedupSpecLoop, dupA, dupB]
  refine ⟨h1, h2, ?_⟩
  rw [h1, h2]
  simp

theorem dedupLoop_props : ∀ (l : List RetResult) (seen : List String),
    List.Pairwise (fun a b => a.text.take 300 ≠ b.text.take 300) (dedupLoop l seen) ∧
    (∀ r ∈ dedupLoop l seen, r.text.take 300 ∉ seen) ∧
    (∀ r ∈ l, r.text.take 300 ∈ seen ∨
      ∃ r2 ∈ dedupLoop l seen, r2.text.take 300 = r.text.take 300) ∧
    (dedupLoop l seen).Sublist l := by
  intro l
  induction l with
  | nil => intro seen; simp [dedupLoop]
  | cons c rest ih =>
    intro seen
    by_cases hk : c.text.take 300 ∈ seen
    · have h := ih seen
      have hd : dedupLoop (c :: rest) seen = dedupLoop rest seen := by
        simp [dedupLoop, hk]
      refine ⟨hd ▸ h.1, hd ▸ h.2.1, ?_, hd ▸ (h.2.2.2.cons c)⟩
      intro r hr
      rcases List.mem_cons.mp hr with hr | hr
      · exact Or.inl (hr ▸ hk)
      · rcases h.2.2.1 r hr with hin | hex
        · exact Or.inl hin
        · exact Or.inr (hd ▸ hex)
    · have h := ih (c.text.take 300 :: seen)
      have hd : dedupLoop (c :: rest) seen =
          c :: dedupLoop rest (c.text.take 300 :: seen) := by
        simp [dedupLoop, hk]
      rw [hd]
      refine ⟨?_, ?_, ?_, h.2.2.2.cons₂ c⟩
      · refine List.pairwise_cons.mpr ⟨?_, h.1⟩
        intro b hb hcb
        have hnb := h.2.1 b hb
        simp only [List.mem_cons, not_or] at hnb
        exact hnb.1 hcb.symm
      · intro r hr
        rcases List.mem_cons.mp hr with hr | hr
        · exact hr ▸ hk
        · have hnb := h.2.1 r hr
          simp only [List.mem_cons, not_or] at hnb
          exact hnb.2
      · intro r hr
        rcases List.mem_cons.mp hr with hr | hr
        · exact Or.inr ⟨c, List.mem_cons_self _ _, by rw [hr]⟩
        · rcases h.2.2.1 r hr with hin | hex
          · rcases List.mem_cons.mp hin with heq | hin2
            · exact Or.inr ⟨c, List.mem_cons_self _ _, heq.symm⟩
            · exact Or.inl hin2
          · rcases hex with ⟨r2, hr2, hkey⟩
            exact Or.inr ⟨r2, List.mem_cons_of_mem _ hr2, hkey⟩

/-- Claim C4, amended: `_deduplicate_content` deduplicates by the first 300
characters of each chunk text ALONE — the source file is not part of the
key: the survivors form a sublist of the input with pairwise distinct
300-character text prefixes, and every input prefix keeps exactly one
representative.  In particular, two results agreeing on their first 400
characters with identical sources still collapse to one (their
300-character prefixes agree). -/
theorem dedupContent_by_text_prefix (l : List RetResult) :
    List.Pairwise (fun a b => a.text.take 300 ≠ b.text.take 300) (dedupContent l) ∧
    (∀ r ∈ l, ∃ r2 ∈ dedupContent l, r2.text.take 300 = r.text.take 300) ∧
    (dedupContent l).Sublist l := by
  have h := dedupLoop_props l []
  exact ⟨h.1, fun r hr => (h.2.2.1 r hr).resolve_left (by simp), h.2.2.2⟩

theorem boostOf_eq (h : Nat) :
    boostOf h = 1 + (1 / 20 : ℚ) * ((min 6 h : ℕ) : ℚ) := by
  unfold boostOf
  split
  · rfl
  · rename_i h0
    simp only [ne_eq, not_not] at h0
    subst h0
    norm_num

theorem boostOf_ge_one (h : Nat) : 1 ≤ boostOf h := by
  rw [boostOf_eq]
  have hc : (0 : ℚ) ≤ ((min 6 h : ℕ) : ℚ) := Nat.cast_nonneg _
  nlinarith

theorem boostOf_le (h : Nat) : boostOf h ≤ 13 / 10 := by
  rw [boostOf_eq]
  have h6 : ((min 6 h : ℕ) : ℚ) ≤ 6 := by
    exact_mod_cast Nat.min_le_left 6 h
  nlinarith

theorem boostOf_mono {h1 h2 : Nat} (h : h1 ≤ h2) : boostOf h1 ≤ boostOf h2 := by
  rw [boostOf_eq, boostOf_eq]
  have hm : ((min 6 h1 : ℕ) : ℚ) ≤ ((min 6 h2 : ℕ) : ℚ) := by
    exact_mod_cast min_le_min (le_refl 6) h
  nlinarith

theorem keywordBoost_pos_getD (query : String) (docs : List String)
    (hq : renalTerms.any (fun t => strContains (pyLower query) t) = true)
    (i : Nat) (hi : i < docs.length) :
    (keywordBoost query docs).getD i 1 = boostOf (docHits (docs.getD i "")) := by
  simp only [keywordBoost, hq, if_true]
  have hin : i < max 1 docs.length := lt_of_lt_of_le hi (le_max_right _ _)
  rw [List.getD_eq_getElem?_getD, List.getElem?_map, List.getElem?_range hin]
  rfl

theorem zipWith_mul_replicate_one (sims : List ℚ) :
    List.zipWith (fun x y => x * y) sims (List.replicate sims.length 1) = sims := by
  induction sims with
  | nil => rfl
  | cons a l ih => simp [List.replicate_succ, ih]

/-- Claim C8: if the query contains at least one fixed domain term, every
candidate chunk score is multiplied by `boostOf hits = 1 + 0.05 * min(6,
hits)` — a factor of at least `1`, monotone in the domain-term
count of the chunk, and capped at `1.3` (at most +30%); if the query contains no
domain term, the boost vector is all ones and the elementwise
multiplication leaves every score unchanged. -/
theorem keyword_boost_claim (query : String) (docs : List String) :
    ((renalTerms.any (fun t => strContains (pyLower query) t) = true →
        (∀ i, i < docs.length →
          (keywordBoost query docs).getD i 1 = boostOf (docHits (docs.getD i "")) ∧
          1 ≤ (keywordBoost query docs).getD i 1 ∧
          (keywordBoost query docs).getD i 1 ≤ 13 / 10) ∧
        (∀ i j, i < docs.length → j < docs.length →
          docHits (docs.getD i "") ≤ docHits (docs.getD j "") →
          (keywordBoost query docs).getD i 1 ≤ (keywordBoost query docs).getD j 1)) ∧
     (renalTerms.any (fun t => strContains (pyLower query) t) = false →
        keywordBoost query docs = List.replicate (max 1 docs.length) 1 ∧
        ∀ sims : List ℚ, sims.length = max 1 docs.length →
          mulBroadcast sims (keywordBoost query docs) = some sims)) := by
  constructor
  · intro hq
    constructor
    · intro i hi
      rw [keywordBoost_pos_getD query docs hq i hi]
      exact ⟨rfl, boostOf_ge_one _, boostOf_le _⟩
    · intro i j hi hj hmono
      rw [keywordBoost_pos_getD query docs hq i hi,
          keywordBoost_pos_getD query docs hq j hj]
      exact boostOf_mono hmono
  · intro hq
    have hrep : keywordBoost query docs = List.replicate (max 1 docs.length) 1 := by
      simp [keywordBoost, hq]
    refine ⟨hrep, ?_⟩
    intro sims hlen
    rw [hrep, ← hlen]
    unfold mulBroadcast
    rw [if_pos (by simp), zipWith_mul_replicate_one]

/-- Witness for C8: a query containing "renal" boosts a kidney/nephron
document by the factor `1.1` (two hits), and a query without domain terms
leaves the boost vector at all ones. -/
theorem keyword_boost_claim_witness :
    (keywordBoost "what is renal clearance" ["the kidney and the nephron", "unrelated text"]).getD 0 1 = 11 / 10 ∧
    keywordBoost "hello there" ["the kidney"] = [1] := by
  have h := keyword_boost_claim "what is renal clearance" ["the kidney and the nephron", "unrelated text"]
  have h2 := keyword_boost_claim "hello there" ["the kidney"]
  constructor
  · have hx := ((h.1 (by decide)).1 0 (by decide)).1
    have hd : docHits ((["the kidney and the nephron", "unrelated text"] : List String).getD 0 "") = 2 := by decide
    rw [hx, hd, boostOf_eq]
    norm_num
  · simpa using (h2.2 (by decide)).1

theorem mapM_enc_eq (enc : List String → Option (List (List ℚ)))
    (encOne : String → List ℚ) (henc : ∀ b, enc b = some (b.map encOne)) :
    ∀ l : List (List String), l.mapM enc = some (l.map (fun b => b.map encOne)) := by
  intro l
  induction l with
  | nil => rfl
  | cons b rest ih =>
    rw [List.mapM_cons, henc, ih]
    rfl

theorem rebuildEmbeddings_eq (enc : List String → Option (List (List ℚ)))
    (encOne : String → List ℚ) (henc : ∀ b, enc b = some (b.map encOne))
    (hdim : ∀ s, (encOne s).length = 384) (docs : List String) :
    rebuildEmbeddings enc docs = some (docs.map encOne) := by
  unfold rebuildEmbeddings
  rw [mapM_enc_eq enc encOne henc]
  show vstackQ ((toBatches docs).map (fun b => b.map encOne)) = some (docs.map encOne)
  unfold vstackQ
  have hfl : ((toBatches docs).map (fun b => b.map encOne)).flatten = docs.map encOne := by
    rw [← List.map_flatten, toBatches_flatten]
  rw [hfl]
  have hall : ∀ r ∈ docs.map encOne, r.length = 384 := by
    intro r hr
    rcases List.mem_map.mp hr with ⟨s, _, rfl⟩
    exact hdim s
  rw [if_pos]
  rw [List.all_eq_true]
  intro r hr
  have h384 := hall r hr
  have hhead : ((docs.map encOne).headD []).length = 384 ∨ docs.map encOne = [] := by
    cases hm : docs.map encOne with
    | nil => exact Or.inr rfl
    | cons a rest =>
      refine Or.inl ?_
      have : a ∈ docs.map encOne := by rw [hm]; exact List.mem_cons_self _ _
      simpa using hall a this
  rcases hhead with hh | hh
  · show (r.length == ((docs.map encOne).headD []).length) = true
    rw [h384, hh]
    rfl
  · rw [hh] at hr
    cases hr

/-- Claim C5: when the stored matrix shape mismatches (`needRebuild`), a
retrieval call re-encodes every document in fixed-size batches of 64 and
replaces the stored matrix; after a successful rebuild the returned and
stored matrix is the full batch-encoded matrix of shape
`(len(documents), 384)` (the shared field receives only the completely
built matrix), and running `_ensure_doc_embeddings` again on the rebuilt
store triggers no further rebuild (`needRebuild` is false and the second
call is the identity). -/
theorem ensure_rebuild_claim
    (enc : List String → Option (List (List ℚ))) (encOne : String → List ℚ)
    (docs : List String) (embs : List (List ℚ)) (st : EmbeddingsData)
    (henc : ∀ b, enc b = some (b.map encOne))
    (hdim : ∀ s, (encOne s).length = 384)
    (hmis : needRebuild docs embs = true) (hne : docs ≠ []) :
    (ensureDocEmbeddings enc docs embs st).2 = docs.map encOne ∧
    (ensureDocEmbeddings enc docs embs st).2.length = docs.length ∧
    (∀ r ∈ (ensureDocEmbeddings enc docs embs st).2, r.length = 384) ∧
    (ensureDocEmbeddings enc docs embs st).1 = { st with embeddings := docs.map encOne } ∧
    needRebuild docs (ensureDocEmbeddings enc docs embs st).2 = false ∧
    ensureDocEmbeddings enc docs (ensureDocEmbeddings enc docs embs st).2
        (ensureDocEmbeddings enc docs embs st).1 =
      ((ensureDocEmbeddings enc docs embs st).1,
       (ensureDocEmbeddings enc docs embs st).2) := by
  have hrb := rebuildEmbeddings_eq enc encOne henc hdim docs
  have hlen0 : ¬ docs.length = 0 := by simpa [List.length_eq_zero] using hne
  have hmain : ensureDocEmbeddings enc docs embs st =
      ({ st with embeddings := docs.map encOne }, docs.map encOne) := by
    unfold ensureDocEmbeddings
    rw [if_pos hmis, if_neg hlen0, hrb]
  have hnr : needRebuild docs (docs.map encOne) = false := by
    unfold needRebuild
    have h1 : (decide ((docs.map encOne).length ≠ docs.length)) = false := by
      simp [List.length_map]
    have h2 : ((docs.map encOne).all (fun r => r.length == 384)) = true := by
      rw [List.all_eq_true]
      intro r hr
      rcases List.mem_map.mp hr with ⟨s, _, rfl⟩
      show ((encOne s).length == 384) = true
      rw [hdim s]
      rfl
    rw [h1, h2]
    rfl
  rw [hmain]
  refine ⟨rfl, by simp, ?_, rfl, hnr, ?_⟩
  · intro r hr
    rcases List.mem_map.mp hr with ⟨s, _, rfl⟩
    exact hdim s
  · unfold ensureDocEmbeddings
    rw [if_neg (by simp [hnr])]

/-- Witness for C5: one document, an empty stored matrix (row-count
mismatch), an encoder producing 384-wide rows. -/
theorem ensure_rebuild_claim_witness :
    (ensureDocEmbeddings enc384 oneDocStore.documents [] oneDocStore).2 =
      oneDocStore.documents.map encOne384 ∧
    (ensureDocEmbeddings enc384 oneDocStore.documents [] oneDocStore).2.length =
      oneDocStore.documents.length ∧
    (∀ r ∈ (ensureDocEmbeddings enc384 oneDocStore.documents [] oneDocStore).2,
      r.length = 384) ∧
    (ensureDocEmbeddings enc384 oneDocStore.documents [] oneDocStore).1 =
      { oneDocStore with embeddings := oneDocStore.documents.map encOne384 } ∧
    needRebuild oneDocStore.documents
      (ensureDocEmbeddings enc384 oneDocStore.documents [] oneDocStore).2 = false ∧
    ensureDocEmbeddings enc384 oneDocStore.documents
        (ensureDocEmbeddings enc384 oneDocStore.documents [] oneDocStore).2
        (ensureDocEmbeddings enc384 oneDocStore.documents [] oneDocStore).1 =
      ((ensureDocEmbeddings enc384 oneDocStore.documents [] oneDocStore).1,
       (ensureDocEmbeddings enc384 oneDocStore.documents [] oneDocStore).2) :=
  ensure_rebuild_claim enc384 encOne384 oneDocStore.documents [] oneDocStore
    (fun _ => rfl) (fun _ => List.length_replicate 384 0) (by decide) (by decide)

/-- Evaluation of the success path of `retrieve_relevant_content`, given
the value of every gate along the way. -/
theorem retrieve_success_eval (o : Oracles) (query : String) (n_results : Int)
    (tag_as : Option String) (st st1 : EmbeddingsData) (embs2 : List (List ℚ))
    (qvec : List (List ℚ)) (c sims : List ℚ)
    (hd : ¬ st.documents.length = 0)
    (hens : ensureDocEmbeddings o.enc st.documents st.embeddings st = (st1, embs2))
    (hm : ¬ matSize embs2 = 0)
    (hq : encodeQuery o.enc query = some qvec)
    (hqs : ¬ matSize qvec = 0)
    (hcos : o.cos qvec embs2 = some c)
    (hmul : mulBroadcast c (keywordBoost query st.documents) = some sims)
    (hblank : ((((o.sorter sims).take (max 1 (pyIntOr n_results 8)).toNat).map
        (mkResult st.documents st.metadatas sims tag_as)).all
          (fun r => pyStrip r.text == "")) = false) :
    retrieve o query n_results tag_as st =
      (st1, ((o.sorter sims).take (max 1 (pyIntOr n_results 8)).toNat).map
        (mkResult st.documents st.metadatas sims tag_as)) := by
  simp only [retrieve, hens, hq, hcos, Option.bind_some, hmul, hblank, hd,
    if_false, ite_false, Option.some_bind, hm, hqs, Bool.false_eq_true]

theorem argsortStable_tie :
    argsortStable [(1 : ℚ)/2 * 1, 1/2 * 1] = [0, 1] := by
  unfold argsortStable
  norm_num [List.insertionSort, List.orderedInsert, geAt, List.range_succ]

theorem argsortTieRev_tie :
    argsortTieRev [(1 : ℚ)/2 * 1, 1/2 * 1] = [1, 0] := by
  unfold argsortTieRev
  norm_num [List.insertionSort, List.orderedInsert, geAt, List.range_succ]

theorem tieStore_ensure (o : Oracles) :
    ensureDocEmbeddings o.enc tieStore.documents tieStore.embeddings tieStore =
      (tieStore, tieStore.embeddings) := by
  unfold ensureDocEmbeddings
  rw [if_neg (by decide)]

theorem tieStore_boost :
    mulBroadcast [(1 : ℚ)/2, 1/2] (keywordBoost "query" tieStore.documents) =
      some [(1 : ℚ)/2 * 1, 1/2 * 1] := by
  have hkb : keywordBoost "query" tieStore.documents = [1, 1] := by
    simp [keywordBoost, tieStore,
      (by decide : (renalTerms.any fun t => strContains (pyLower "query") t) = false)]
  rw [hkb]
  unfold mulBroadcast
  rw [if_pos (by decide)]
  rfl

theorem retrieve_tie_stable_eval :
    (retrieve demoOracles "query" 2 none tieStore).2.map RetResult.text =
      ["first tied document", "second tied document"] := by
  have hblank : ((((demoOracles.sorter [(1 : ℚ)/2 * 1, 1/2 * 1]).take
      (max 1 (pyIntOr 2 8)).toNat).map
        (mkResult tieStore.documents tieStore.metadatas [(1 : ℚ)/2 * 1, 1/2 * 1] none)).all
          (fun r => pyStrip r.text == "")) = false := by
    rw [show demoOracles.sorter = argsortStable from rfl, argsortStable_tie]
    decide
  have heval := retrieve_success_eval demoOracles "query" 2 none tieStore tieStore
      tieStore.embeddings [[1]] [(1 : ℚ)/2, 1/2] [(1 : ℚ)/2 * 1, 1/2 * 1]
      (by decide) (tieStore_ensure demoOracles) (by decide) rfl (by decide) rfl
      tieStore_boost hblank
  rw [heval]
  rw [show demoOracles.sorter = argsortStable from rfl, argsortStable_tie]
  decide

theorem retrieve_tie_rev_eval :
    (retrieve revOracles "query" 2 none tieStore).2.map RetResult.text =
      ["second tied document", "first tied document"] := by
  have hblank : ((((revOracles.sorter [(1 : ℚ)/2 * 1, 1/2 * 1]).take
      (max 1 (pyIntOr 2 8)).toNat).map
        (mkResult tieStore.documents tieStore.metadatas [(1 : ℚ)/2 * 1, 1/2 * 1] none)).all
          (fun r => pyStrip r.text == "")) = false := by
    rw [show revOracles.sorter = argsortTieRev from rfl, argsortTieRev_tie]
    decide
  have heval := retrieve_success_eval revOracles "query" 2 none tieStore tieStore
      tieStore.embeddings [[1]] [(1 : ℚ)/2, 1/2] [(1 : ℚ)/2 * 1, 1/2 * 1]
      (by decide) (tieStore_ensure revOracles) (by decide) rfl (by decide) rfl
      tieStore_boost hblank
  rw [heval]
  rw [show revOracles.sorter = argsortTieRev from rfl, argsortTieRev_tie]
  decide

/-- Claim C6, counterexample: `np.argsort` under its documented default contract
need not break ties by index order.  `argsortTieRev` satisfies the
descending-sort contract, yet on an index with two tied documents it
makes `retrieve_relevant_content` return the two chunks in reverse index
order, differing from the stable order the claim asserts. -/
theorem retrieve_tie_order_counterexample :
    ArgsortDescSpec argsortTieRev ∧
    (retrieve revOracles "query" 2 none tieStore).2 ≠
      (retrieve demoOracles "query" 2 none tieStore).2 := by
  refine ⟨argsortTieRev_spec, ?_⟩
  intro hEq
  have htexts := congrArg (List.map RetResult.text) hEq
  rw [retrieve_tie_rev_eval, retrieve_tie_stable_eval] at htexts
  exact absurd htexts (by decide)

theorem ensure_fields (enc : List String → Option (List (List ℚ)))
    (docs : List String) (embs : List (List ℚ)) (st : EmbeddingsData) :
    ((ensureDocEmbeddings enc docs embs st).1).documents = st.documents ∧
    ((ensureDocEmbeddings enc docs embs st).1).metadatas = st.metadatas ∧
    ((ensureDocEmbeddings enc docs embs st).1).ids = st.ids := by
  unfold ensureDocEmbeddings
  split
  · split
    · exact ⟨rfl, rfl, rfl⟩
    · split <;> exact ⟨rfl, rfl, rfl⟩
  · exact ⟨rfl, rfl, rfl⟩

theorem ensure_again (enc : List String → Option (List (List ℚ)))
    (docs : List String) (st : EmbeddingsData) :
    ensureDocEmbeddings enc docs
        (ensureDocEmbeddings enc docs st.embeddings st).1.embeddings
        (ensureDocEmbeddings enc docs st.embeddings st).1 =
      ensureDocEmbeddings enc docs st.embeddings st := by
  by_cases h1 : needRebuild docs st.embeddings = true
  · by_cases h2 : docs.length = 0
    · have hp : ensureDocEmbeddings enc docs st.embeddings st = (st, []) := by
        unfold ensureDocEmbeddings
        rw [if_pos h1, if_pos h2]
      rw [hp]
      exact hp
    · cases hrb : rebuildEmbeddings enc docs with
      | none =>
        have hp : ensureDocEmbeddings enc docs st.embeddings st = (st, []) := by
          unfold ensureDocEmbeddings
          rw [if_pos h1, if_neg h2, hrb]
        rw [hp]
        exact hp
      | some rebuilt =>
        have hp : ensureDocEmbeddings enc docs st.embeddings st =
            ({ st with embeddings := rebuilt }, rebuilt) := by
          unfold ensureDocEmbeddings
          rw [if_pos h1, if_neg h2, hrb]
        rw [hp]
        by_cases h3 : needRebuild docs rebuilt = true
        · unfold ensureDocEmbeddings
          rw [if_pos h3, if_neg h2, hrb]
        · unfold ensureDocEmbeddings
          rw [if_neg h3]
  · have hp : ensureDocEmbeddings enc docs st.embeddings st = (st, st.embeddings) := by
      unfold ensureDocEmbeddings
      rw [if_neg h1]
    rw [hp]
    exact hp

theorem retrieve_state_eq (o : Oracles) (query : String) (n_results : Int)
    (tag_as : Option String) (st : EmbeddingsData) :
    (retrieve o query n_results tag_as st).1 =
      if st.documents.length = 0 then st
      else (ensureDocEmbeddings o.enc st.documents st.embeddings st).1 := by
  by_cases hd : st.documents.length = 0
  · rw [if_pos hd]
    unfold retrieve
    rw [if_pos hd]
  · simp only [retrieve, if_neg hd]
    repeat' split
    all_goals rfl

/-- Repeated retrieval is deterministic: a second call with the same
query and parameters on the state returned by the first call produces
exactly the same state and results (in particular, a successful rebuild
is not repeated, and a failed one reproduces the same fallback). -/
theorem retrieve_retrieve (o : Oracles) (query : String) (n_results : Int)
    (tag_as : Option String) (st : EmbeddingsData) :
    retrieve o query n_results tag_as (retrieve o query n_results tag_as st).1 =
      retrieve o query n_results tag_as st := by
  by_cases hd : st.documents.length = 0
  · have hst1 : (retrieve o query n_results tag_as st).1 = st := by
      rw [retrieve_state_eq, if_pos hd]
    rw [hst1]
  · have hst1 : (retrieve o query n_results tag_as st).1 =
        (ensureDocEmbeddings o.enc st.documents st.embeddings st).1 := by
      rw [retrieve_state_eq, if_neg hd]
    have hf := ensure_fields o.enc st.documents st.embeddings st
    rw [hst1]
    simp only [retrieve, hf.1, hf.2.1, ensure_again o.enc st.documents st, if_neg hd]

/-- Claim C6, amended: under the documented contract of `np.argsort` (descending
permutation of the index range, tie order unspecified by the default
quicksort kind), `retrieve_relevant_content` returns results ordered
by non-increasing boosted similarity score, and repeated calls on a fixed
index and query are deterministic: the second call reproduces the same
state and the same ordered results.  Ties are NOT guaranteed to follow
the original index order. -/
theorem retrieve_sorted_deterministic (o : Oracles) (query : String)
    (n_results : Int) (tag_as : Option String) (st : EmbeddingsData)
    (hs : ArgsortDescSpec o.sorter) :
    List.Sorted (fun a b => b ≤ a)
      ((retrieve o query n_results tag_as st).2.map RetResult.similarity_score) ∧
    retrieve o query n_results tag_as (retrieve o query n_results tag_as st).1 =
      retrieve o query n_results tag_as st := by
  refine ⟨?_, retrieve_retrieve o query n_results tag_as st⟩
  rcases retrieve_eq_fallback_or o query n_results tag_as st with
    hf | ⟨sims, _, _, heq, _⟩
  · rw [hf, fallbackContent_scores]
    refine List.sorted_cons.mpr ⟨?_, List.sorted_cons.mpr ⟨?_, ?_⟩⟩
    · intro b hb
      rcases List.mem_cons.mp hb with rfl | hb
      · norm_num
      · rcases List.mem_cons.mp hb with rfl | hb
        · norm_num
        · cases hb
    · intro b hb
      rcases List.mem_cons.mp hb with rfl | hb
      · norm_num
      · cases hb
    · exact List.sorted_singleton _
  · rw [heq, List.map_map]
    have hsorted := (hs sims).2
    have htake := List.Pairwise.sublist
      (List.take_sublist (max 1 (pyIntOr n_results 8)).toNat (o.sorter sims)) hsorted
    exact List.Pairwise.map _ (fun i j hij => hij) htake

/-- Witness for the amended C6: the stable argsort satisfies the contract;
on the two-document tied index the scores come out non-increasing and the
repeated call is identical. -/
theorem retrieve_sorted_deterministic_witness :
    List.Sorted (fun a b => b ≤ a)
      ((retrieve demoOracles "query" 2 none tieStore).2.map RetResult.similarity_score) ∧
    retrieve demoOracles "query" 2 none (retrieve demoOracles "query" 2 none tieStore).1 =
      retrieve demoOracles "query" 2 none tieStore :=
  retrieve_sorted_deterministic demoOracles "query" 2 none tieStore argsortStable_spec

/-- Claim C10, counterexample: on a non-empty index whose single document has
blank text, `retrieve_relevant_content(query, n_results=-1)` (so `k =
max(1, -1) = 1`) returns the 3-entry fallback — three results, not
exactly one, exceeding `k`. -/
theorem retrieve_cap_counterexample :
    ((retrieve demoOracles "query" (-1) none blankStore).2).length = 3 ∧
    ((retrieve demoOracles "query" (-1) none blankStore).2).length ≠ 1 := by
  constructor <;> decide

/-- Claim C10, amended: the per-call cap is `k = max(1, n_results or 8)`:
`n_results = 0` gives the default 8, negative `n_results` gives 1, and
any other `n_results` gives `max(1, n_results)`.  On the similarity path
at most `k` results are returned (exactly one for negative `n_results`),
but when the call degrades to the fallback — in particular when every
top-`k` text is blank — it returns the fixed 3 entries, which can exceed
`k`; so the overall bound is `max(k, 3)`, not `k`. -/
theorem retrieve_result_cap (o : Oracles) (query : String) (n_results : Int)
    (tag_as : Option String) (st : EmbeddingsData)
    (hs : ArgsortDescSpec o.sorter) :
    (n_results = 0 → max 1 (pyIntOr n_results 8) = 8) ∧
    (n_results < 0 → max 1 (pyIntOr n_results 8) = 1) ∧
    (n_results ≠ 0 → max 1 (pyIntOr n_results 8) = max 1 n_results) ∧
    ((retrieve o query n_results tag_as st).2 = fallbackContent tag_as ∨
      (retrieve o query n_results tag_as st).2.length ≤
        (max 1 (pyIntOr n_results 8)).toNat) ∧
    (retrieve o query n_results tag_as st).2.length ≤
      max (max 1 (pyIntOr n_results 8)).toNat 3 ∧
    (n_results < 0 →
      (retrieve o query n_results tag_as st).2 = fallbackContent tag_as ∨
      (retrieve o query n_results tag_as st).2.length = 1) := by
  have hk0 : n_results = 0 → max 1 (pyIntOr n_results 8) = 8 := by
    intro h
    simp [pyIntOr, h]
  have hkneg : n_results < 0 → max 1 (pyIntOr n_results 8) = 1 := by
    intro h
    have hne : ¬ n_results = 0 := by omega
    simp only [pyIntOr, hne, if_false, ite_false]
    omega
  have hkpos : n_results ≠ 0 → max 1 (pyIntOr n_results 8) = max 1 n_results := by
    intro h
    simp [pyIntOr, h]
  rcases retrieve_eq_fallback_or o query n_results tag_as st with
    hf | ⟨sims, hlen, _, heq, _⟩
  · refine ⟨hk0, hkneg, hkpos, Or.inl hf, ?_, fun _ => Or.inl hf⟩
    rw [hf, fallbackContent_length]
    exact le_max_right _ _
  · have hlen2 : (retrieve o query n_results tag_as st).2.length =
        min (max 1 (pyIntOr n_results 8)).toNat (o.sorter sims).length := by
      rw [heq, List.length_map, List.length_take]
    have hcap : (retrieve o query n_results tag_as st).2.length ≤
        (max 1 (pyIntOr n_results 8)).toNat := by
      rw [hlen2]
      exact Nat.min_le_left _ _
    refine ⟨hk0, hkneg, hkpos, Or.inr hcap, le_trans hcap (le_max_left _ _), ?_⟩
    intro hneg
    refine Or.inr ?_
    have hsl : (o.sorter sims).length = sims.length :=
      ((hs sims).1.length_eq).trans (List.length_range _)
    have hpos : 1 ≤ sims.length := by
      rw [hlen]
      exact le_max_left _ _
    rw [hlen2, hkneg hneg]
    simp only [Int.toNat_one]
    omega

/-- Witness for the amended C10 at the blank-document index with
`n_results = -1`: the cap is 1 and the call resolves to the fallback (or
a single result), never silently exceeding `max(k, 3)`. -/
theorem retrieve_result_cap_witness :
    ((-1 : Int) = 0 → max 1 (pyIntOr (-1) 8) = 8) ∧
    ((-1 : Int) < 0 → max 1 (pyIntOr (-1) 8) = 1) ∧
    ((-1 : Int) ≠ 0 → max 1 (pyIntOr (-1) 8) = max 1 (-1)) ∧
    ((retrieve demoOracles "query" (-1) none blankStore).2 = fallbackContent none ∨
      (retrieve demoOracles "query" (-1) none blankStore).2.length ≤
        (max 1 (pyIntOr (-1) 8)).toNat) ∧
    (retrieve demoOracles "query" (-1) none blankStore).2.length ≤
      max (max 1 (pyIntOr (-1) 8)).toNat 3 ∧
    ((-1 : Int) < 0 →
      (retrieve demoOracles "query" (-1) none blankStore).2 = fallbackContent none ∨
      (retrieve demoOracles "query" (-1) none blankStore).2.length = 1) :=
  retrieve_result_cap demoOracles "query" (-1) none blankStore argsortStable_spec

theorem mkResult_metadata_tag (docs : List String) (metas : List Metadata)
    (sims : List ℚ) (t : String) (ht : t ≠ "") (i : Nat) :
    (mkResult docs metas sims (some t) i).metadata =
      metaSet (if i < metas.length then metas.getD i [] else []) "content_type" t := by
  simp only [mkResult, if_pos ht]

theorem fallbackContent_tag (t : String) (ht : t ≠ "") :
    fallbackContent (some t) =
      fallbackBase.map (fun r => { r with metadata := metaSet r.metadata "content_type" t }) := by
  simp [fallbackContent, ht]

/-- Claim C9, counterexample: `tag_as` supplied as the empty string is falsy for
`if tag_as:`, so no override happens — on the empty index the first
fallback result keeps `content_type = "course_slide"`, not the supplied
tag `""`. -/
theorem tag_override_counterexample :
    metaGet (((retrieve demoOracles "q" 5 (some "") emptyStore).2.headD default).metadata)
        "content_type" = some "course_slide" ∧
    some "course_slide" ≠ some "" := by
  constructor <;> decide

/-- Claim C9, amended: when `tag_as` is supplied AND non-empty (Python `if
tag_as:` treats the empty string like `None`), every result of
`retrieve_relevant_content` — fallback path included — carries
`content_type` metadata equal to the tag; the override is applied to a
copy: the stored documents, metadatas and ids are unchanged, every other
metadata key of each result reads exactly as in the dictionary its
metadata was derived from, and that dictionary is a stored one,
the empty one, or a fallback one. -/
theorem tag_override_claim (o : Oracles) (query : String) (n_results : Int)
    (t : String) (st : EmbeddingsData) (ht : t ≠ "") :
    (∀ r ∈ (retrieve o query n_results (some t) st).2,
      metaGet r.metadata "content_type" = some t) ∧
    ((retrieve o query n_results (some t) st).1.documents = st.documents ∧
     (retrieve o query n_results (some t) st).1.metadatas = st.metadatas ∧
     (retrieve o query n_results (some t) st).1.ids = st.ids) ∧
    (∀ r ∈ (retrieve o query n_results (some t) st).2,
      ∃ m : Metadata,
        r.metadata = metaSet m "content_type" t ∧
        (∀ k2, k2 ≠ "content_type" → metaGet r.metadata k2 = metaGet m k2) ∧
        (m ∈ st.metadatas ∨ m = [] ∨ m ∈ fallbackBase.map RetResult.metadata)) := by
  have hb : (retrieve o query n_results (some t) st).1.documents = st.documents ∧
      (retrieve o query n_results (some t) st).1.metadatas = st.metadatas ∧
      (retrieve o query n_results (some t) st).1.ids = st.ids := by
    rw [retrieve_state_eq]
    split
    · exact ⟨rfl, rfl, rfl⟩
    · exact ensure_fields o.enc st.documents st.embeddings st
  have hc : ∀ r ∈ (retrieve o query n_results (some t) st).2,
      ∃ m : Metadata,
        r.metadata = metaSet m "content_type" t ∧
        (∀ k2, k2 ≠ "content_type" → metaGet r.metadata k2 = metaGet m k2) ∧
        (m ∈ st.metadatas ∨ m = [] ∨ m ∈ fallbackBase.map RetResult.metadata) := by
    rcases retrieve_eq_fallback_or o query n_results (some t) st with
      hf | ⟨sims, _, _, heq, _⟩
    · rw [hf, fallbackContent_tag t ht]
      intro r hr
      rcases List.mem_map.mp hr with ⟨x, hx, rfl⟩
      refine ⟨x.metadata, rfl, ?_, Or.inr (Or.inr (List.mem_map_of_mem _ hx))⟩
      intro k2 hk2
      exact metaGet_metaSet_other x.metadata "content_type" t k2 hk2
    · rw [heq]
      intro r hr
      rcases List.mem_map.mp hr with ⟨i, _, rfl⟩
      refine ⟨(if i < st.metadatas.length then st.metadatas.getD i [] else []),
        mkResult_metadata_tag st.documents st.metadatas sims t ht i, ?_, ?_⟩
      · intro k2 hk2
        rw [mkResult_metadata_tag st.documents st.metadatas sims t ht i]
        exact metaGet_metaSet_other _ "content_type" t k2 hk2
      · by_cases hi : i < st.metadatas.length
        · rw [if_pos hi]
          refine Or.inl ?_
          have hgd : st.metadatas.getD i [] = st.metadatas[i] := by
            rw [List.getD_eq_getElem?_getD, List.getElem?_eq_getElem hi]
            rfl
          rw [hgd]
          exact List.getElem_mem hi
        · rw [if_neg hi]
          exact Or.inr (Or.inl rfl)
  refine ⟨?_, hb, hc⟩
  intro r hr
  obtain ⟨m, hm, _, _⟩ := hc r hr
  rw [hm]
  exact metaGet_metaSet_self m "content_type" t

/-- Witness for the amended C9 at a concrete non-empty tag on the empty
index (fallback path). -/
theorem tag_override_claim_witness :
    (∀ r ∈ (retrieve demoOracles "q" 5 (some "exercise_question") emptyStore).2,
      metaGet r.metadata "content_type" = some "exercise_question") ∧
    ((retrieve demoOracles "q" 5 (some "exercise_question") emptyStore).1.documents =
        emptyStore.documents ∧
     (retrieve demoOracles "q" 5 (some "exercise_question") emptyStore).1.metadatas =
        emptyStore.metadatas ∧
     (retrieve demoOracles "q" 5 (some "exercise_question") emptyStore).1.ids =
        emptyStore.ids) ∧
    (∀ r ∈ (retrieve demoOracles "q" 5 (some "exercise_question") emptyStore).2,
      ∃ m : Metadata,
        r.metadata = metaSet m "content_type" "exercise_question" ∧
        (∀ k2, k2 ≠ "content_type" → metaGet r.metadata k2 = metaGet m k2) ∧
        (m ∈ emptyStore.metadatas ∨ m = [] ∨ m ∈ fallbackBase.map RetResult.metadata)) :=
  tag_override_claim demoOracles "q" 5 "exercise_question" emptyStore (by decide)

theorem appendSources_ne_empty (f : List RetResult → String) (resp : String)
    (l : List RetResult) (h : resp ≠ "") : appendSources f resp l ≠ "" := by
  simp only [appendSources]
  split
  · split
    · exact append_ne_empty_left _ _ (append_ne_empty_left _ _ h)
    · exact h
  · exact h

/-- Claim C2: for every question, history and index state, `generate_response`
returns a dictionary with a non-empty string under `"response"` (given
that the black-box completion service returns non-empty text when it
succeeds) and, being a total function, never raises: when the relevance
check classifies the question as off-domain a response is still produced
— the general prompt is used, no retrieval context, citations or context
sources are attached — and when the completion call fails the returned
dictionary carries the fixed error message under `"response"` together
with the `"error"` field. -/
theorem generate_response_claim (o : TAOracles) (question : String)
    (hist : List ChatMsg) (st : EmbeddingsData)
    (hllm : ∀ msgs r, o.llm msgs = Except.ok r → r ≠ "") :
    (generateResponse o question hist st).1.response ≠ "" ∧
    (o.relevance question = false →
      ∀ r, o.llm (createGeneralMessages question hist) = Except.ok r →
        generateResponse o question hist st =
          (TAResult.ok r [] [] [] false [], st)) ∧
    (∀ e, o.llm (messagesOf o question hist st) = Except.error e →
      (generateResponse o question hist st).1 = TAResult.failed errorResponseMsg e) := by
  by_cases hrel : o.relevance question = true
  · have hmsg : messagesOf o question hist st =
        createMessages question (prepareContext (getRelevantContent o.rag question st).2) hist := by
      simp [messagesOf, hrel]
    cases hres : o.llm (createMessages question
        (prepareContext (getRelevantContent o.rag question st).2) hist) with
    | error e =>
      have hgen : (generateResponse o question hist st).1 =
          TAResult.failed errorResponseMsg e := by
        simp only [generateResponse, hrel, if_true, hres]
      refine ⟨?_, ?_, ?_⟩
      · rw [hgen]
        show errorResponseMsg ≠ ""
        decide
      · intro hfalse
        rw [hrel] at hfalse
        cases hfalse
      · intro e2 he2
        rw [hmsg, hres] at he2
        injection he2 with h
        subst h
        exact hgen
    | ok r =>
      have hrne : r ≠ "" := hllm _ r hres
      have hgen : (generateResponse o question hist st).1.response =
          (if o.relevance question = true ∧ (getRelevantContent o.rag question st).2 ≠ []
           then appendSources o.fmtSources r (getRelevantContent o.rag question st).2
           else r) := by
        simp only [generateResponse, hrel, if_true, hres, TAResult.response]
      refine ⟨?_, ?_, ?_⟩
      · rw [hgen]
        split
        · exact appendSources_ne_empty _ _ _ hrne
        · exact hrne
      · intro hfalse
        rw [hrel] at hfalse
        cases hfalse
      · intro e2 he2
        rw [hmsg, hres] at he2
        cases he2
  · have hrelf : o.relevance question = false := by
      simpa using hrel
    have hmsg : messagesOf o question hist st = createGeneralMessages question hist := by
      simp [messagesOf, hrelf]
    cases hres : o.llm (createGeneralMessages question hist) with
    | error e =>
      have hgen : (generateResponse o question hist st).1 =
          TAResult.failed errorResponseMsg e := by
        simp only [generateResponse, hrelf, Bool.false_eq_true, if_false, ite_false, hres]
      refine ⟨?_, ?_, ?_⟩
      · rw [hgen]
        show errorResponseMsg ≠ ""
        decide
      · intro _ r hok
        cases hok
      · intro e2 he2
        rw [hmsg, hres] at he2
        injection he2 with h
        subst h
        exact hgen
    | ok r =>
      have hgen : generateResponse o question hist st =
          (TAResult.ok r [] [] [] false [], st) := by
        simp only [generateResponse, hrelf, Bool.false_eq_true, if_false, ite_false, hres]
        simp
      refine ⟨?_, ?_, ?_⟩
      · rw [hgen]
        exact hllm _ r hres
      · intro _ r2 hok2
        injection hok2 with h
        subst h
        exact hgen
      · intro e2 he2
        rw [hmsg, hres] at he2
        cases he2

/-- Witness for C2 with the concrete off-domain classifier and a fixed
non-empty completion reply. -/
theorem generate_response_claim_witness :
    (generateResponse demoTAOracles "hello" [] emptyStore).1.response ≠ "" ∧
    (demoTAOracles.relevance "hello" = false →
      ∀ r, demoTAOracles.llm (createGeneralMessages "hello" []) = Except.ok r →
        generateResponse demoTAOracles "hello" [] emptyStore =
          (TAResult.ok r [] [] [] false [], emptyStore)) ∧
    (∀ e, demoTAOracles.llm (messagesOf demoTAOracles "hello" [] emptyStore) =
        Except.error e →
      (generateResponse demoTAOracles "hello" [] emptyStore).1 =
        TAResult.failed errorResponseMsg e) :=
  generate_response_claim demoTAOracles "hello" [] emptyStore
    (fun msgs r h => by
      have h2 : ("All good." : String) = r := by
        simpa [demoTAOracles] using h
      rw [← h2]
      decide)
